import Mathlib

/-!
# Verification of the `h3ToGeoBoundary` stdin/stdout filter

Shallow embedding of `src/apps/filters/h3ToGeoBoundary.c`: a command-line
filter that reads H3 indexes from stdin (one per line, via `fgets` into a
fixed buffer of `BUFF_SIZE` bytes) and writes each cell's boundary to stdout,
either as plain text (outputMode 0, the default) or as a KML document
(outputMode 1) with a header before the records and a footer after them.

The geometry and string collaborators (`stringToH3`, `h3ToGeoBoundary`,
`h3ToString`) are external to the core per the specification and are taken as
abstract parameters.  The output helpers (`kmlPtsHeader`, `kmlPtsFooter`,
`outputBoundaryKML`, `geoBoundaryPrintln`, `printf`) are modelled as abstract
output events, since the claims under verification concern only when they are
invoked and with which arguments.
-/

namespace H3Filter

/-- How the input stream terminates once its content is exhausted: either a
clean end-of-stream (`feof(stdin)` true after `fgets` returns NULL), or a
read failure that is not end-of-stream (an I/O error). -/
inductive StreamEnd : Type
  | eof : StreamEnd
  | ioError : StreamEnd
  deriving DecidableEq, Repr

/-- One record's body as emitted by `doCell`, carrying the boundary obtained
from `h3ToGeoBoundary` and the label obtained from `h3ToString`.
`kml` stands for `outputBoundaryKML(&b, label)`; `plain` stands for
`printf("%s\n", label)` followed by `geoBoundaryPrintln(&b)`. -/
inductive RecordBody (β : Type) : Type
  | kml : β → String → RecordBody β
  | plain : String → β → RecordBody β
  deriving DecidableEq, Repr

/-- One event on standard output.  `header name desc` stands for the call
`kmlPtsHeader(kmlName, kmlDesc)`; `footer` stands for `kmlPtsFooter()`;
`record` stands for the output of one `doCell` call. -/
inductive OutEvent (β : Type) : Type
  | header : String → String → OutEvent β
  | record : RecordBody β → OutEvent β
  | footer : OutEvent β
  deriving DecidableEq, Repr

/-- Modelled from the spec: the repository's `error` helper (declared in
`utility.h`, implementation not under `src/`) reports its message to the
error stream and terminates the process with a non-zero exit status
("fatal configuration error (non-zero exit)", "reported to the error stream;
process halts immediately").  `usageError` is the in-source
`fprintf(stderr, "usage: ...")` followed by `exit(1)`. -/
inductive ExitResult : Type
  | ok : ExitResult
  | usageError : ExitResult
  | fatalError : String → ExitResult
  deriving DecidableEq, Repr

/-- The process exit status: 0 on clean completion, 1 on the usage error
(`exit(1)` in the source) and non-zero (modelled from the spec as 1) for the
`error` helper. -/
def exitCode : ExitResult → Nat
  | ExitResult.ok => 0
  | ExitResult.usageError => 1
  | ExitResult.fatalError _ => 1

/-- Everything observable about one run: the ordered stdout events and the
exit status. -/
structure RunOutput (β : Type) : Type where
  events : List (OutEvent β)
  exit : ExitResult
  deriving DecidableEq, Repr

/-- The external collaborators consumed by the filter, per the spec's
"Collaborator interfaces consumed".  An `H3Index` is an opaque 64-bit token;
it is represented as `Nat` and never inspected by the core. -/
structure Collaborators (β : Type) : Type where
  stringToH3 : List Char → Nat
  h3ToGeoBoundary : Nat → β
  h3ToString : Nat → String

/-! ## The `sscanf(argv[1], "%d", &isKmlOut)` model

Per C11 7.21.6.2, `sscanf` with a single `%d` directive returns
* `EOF` (here `eofFail`) when the input ends before any character of the
  conversion has been read — i.e. the string is empty or all whitespace;
* `0` (here `matchFail`) on a matching failure: a non-whitespace character is
  present but no digit follows the optional sign;
* `1` (here `ok v`) when an optional sign followed by at least one decimal
  digit is read; trailing characters are ignored.
The source tests `!sscanf(...)`, which is true only in the `matchFail` case
(`!EOF` is `!(-1)`, i.e. false), and leaves `isKmlOut` at its initialiser `0`
in the `eofFail` case. -/

/-- Result of `sscanf(s, "%d", &x)`. -/
inductive ScanResult : Type
  | eofFail : ScanResult
  | matchFail : ScanResult
  | ok : Int → ScanResult
  deriving DecidableEq, Repr

/-- C `isspace` for the default locale. -/
def isCSpace (c : Char) : Bool :=
  c = ' ' || c = '\t' || c = '\n' || c = '\x0b' || c = '\x0c' || c = '\r'

/-- Value of a list of decimal digits. -/
def digitsToNat (ds : List Char) : Nat :=
  ds.foldl (fun a c => a * 10 + (c.toNat - 48)) 0

/-- `sscanf(s, "%d", &x)`, see the section comment above. -/
def scanInt (s : String) : ScanResult :=
  match s.data.dropWhile isCSpace with
  | [] => ScanResult.eofFail
  | c :: rest =>
    let signed : Bool := c = '-'
    let body : List Char := if c = '-' || c = '+' then rest else c :: rest
    let ds := body.takeWhile Char.isDigit
    if ds = [] then ScanResult.matchFail
    else ScanResult.ok ((if signed then -1 else 1) * (digitsToNat ds : Int))

/-! ## The `fgets(buff, BUFF_SIZE, stdin)` model

`fgets` with buffer size `BUFF_SIZE` reads at most `BUFF_SIZE - 1` characters,
stopping after (and keeping) the first newline.  `readChunk k l` performs one
such read with character budget `k = BUFF_SIZE - 1` on remaining stream
content `l`, returning the characters placed in the buffer and the remaining
content.  The constant `BUFF_SIZE` itself lives in `utility.h` (not under
`src/`), so the buffer size is kept as a parameter `cap`; every theorem below
assumes `2 ≤ cap`, i.e. a buffer that can hold at least one character. -/

/-- One `fgets` call: read up to `k` characters from `l`, stopping after the
first newline, which is kept in the chunk. -/
def readChunk : Nat → List Char → List Char × List Char
  | 0, rest => ([], rest)
  | _ + 1, [] => ([], [])
  | k + 1, c :: rest =>
    if c = '\n' then ([c], rest)
    else
      let p := readChunk k rest
      (c :: p.1, p.2)

/-- The `while (1)` read loop of `main`, with explicit fuel for termination;
`loopAux` with fuel at least `input.length + 1` computes the real loop (see
`loopAux_fuel`).  Returns the list of buffers successively handed to
`stringToH3` and, when the final `fgets` failed other than at end-of-stream,
the message passed to `error`. -/
def loopAux (k : Nat) : Nat → List Char → StreamEnd → List (List Char) × Option String
  | 0, _, _ => ([], none)
  | _ + 1, [], StreamEnd.eof => ([], none)
  | _ + 1, [], StreamEnd.ioError => ([], some "reading H3 index from stdin")
  | fuel + 1, c :: rest, ending =>
    let p := readChunk k (c :: rest)
    let r := loopAux k fuel p.2 ending
    (p.1 :: r.1, r.2)

/-- The read loop with character budget `k = BUFF_SIZE - 1` per `fgets` call,
run to completion on stream content `input` terminated by `ending`. -/
def runLoop (k : Nat) (input : List Char) (ending : StreamEnd) :
    List (List Char) × Option String :=
  loopAux k (input.length + 1) input ending

/-- `doCell(h, isKmlOut)`: obtain the boundary and the label from the
collaborators, then emit one record through the encoder selected by
`isKmlOut` (C truthiness: the KML branch is taken iff `isKmlOut ≠ 0`). -/
def doCell {β : Type} (C : Collaborators β) (h : Nat) (isKmlOut : Int) :
    RecordBody β :=
  let b := C.h3ToGeoBoundary h
  let label := C.h3ToString h
  if isKmlOut ≠ 0 then RecordBody.kml b label else RecordBody.plain label b

/-- Default KML name string (line 86 of the source). -/
def defaultKmlName : String := "geo from H3"

/-- Default KML description string (line 87 of the source). -/
def defaultKmlDesc : String := "from h3ToGeo"

/-- Lines 80–98 of `main`: determine `isKmlOut` and perform the header call.
When `argc > 1`: `sscanf(argv[1], "%d", &isKmlOut)`, with `error` on a zero
return; `error` unless the resulting `isKmlOut` is 0 or 1; then `kmlName` and
`kmlDesc` from `argv[2]`/`argv[3]` or the defaults, and `kmlPtsHeader(kmlName,
kmlDesc)` — called on this path regardless of `isKmlOut`.  When `argc == 1`,
`isKmlOut` keeps its initialiser 0 and no header is emitted. -/
def configure {β : Type} (argv : List String) :
    Except String (Int × List (OutEvent β)) :=
  if argv.length > 1 then
    let r := scanInt (argv.getD 1 "")
    if r = ScanResult.matchFail then Except.error "outputMode must be an integer"
    else
      let isKmlOut : Int := match r with | ScanResult.ok v => v | _ => 0
      if isKmlOut ≠ 0 ∧ isKmlOut ≠ 1 then Except.error "outputMode must be 0 or 1"
      else
        let kmlName := argv.getD 2 defaultKmlName
        let kmlDesc := argv.getD 3 defaultKmlDesc
        Except.ok (isKmlOut, [OutEvent.header kmlName kmlDesc])
  else Except.ok (0, [])

/-- The whole of `main`: the `argc > 5` usage check, configuration and header
(`configure`), the read loop handing each buffer to `stringToH3` and each
resulting index to `doCell`, the `error` call on a non-EOF read failure, and
the `if (isKmlOut) kmlPtsFooter()` at the end.  `argv` includes the program
name, so `argc = argv.length`; `cap` is `BUFF_SIZE`. -/
def mainRun {β : Type} (C : Collaborators β) (cap : Nat) (argv : List String)
    (input : List Char) (ending : StreamEnd) : RunOutput β :=
  if argv.length > 5 then ⟨[], ExitResult.usageError⟩
  else
    match configure (β := β) argv with
    | Except.error msg => ⟨[], ExitResult.fatalError msg⟩
    | Except.ok (isKmlOut, hdr) =>
      let lp := runLoop (cap - 1) input ending
      let recs := lp.1.map fun b =>
        OutEvent.record (doCell C (C.stringToH3 b) isKmlOut)
      match lp.2 with
      | some msg => ⟨hdr ++ recs, ExitResult.fatalError msg⟩
      | none =>
        ⟨hdr ++ recs ++ (if isKmlOut ≠ 0 then [OutEvent.footer] else []),
          ExitResult.ok⟩

/-- The successive buffer contents handed to `stringToH3` during a run (the
argument of each `stringToH3` call in the read loop). -/
def decodeCalls (cap : Nat) (input : List Char) (ending : StreamEnd) :
    List (List Char) :=
  (runLoop (cap - 1) input ending).1

/-- Trivial concrete collaborators used to evaluate the model at concrete
inputs: the decoded index is the buffer length, the boundary is the index
itself, the label its decimal form. -/
def lenCollab : Collaborators Nat :=
  ⟨List.length, id, fun n => toString n⟩

/-! ## Structural lemmas about one `fgets` call -/

theorem readChunk_append : ∀ (k : Nat) (l : List Char),
    (readChunk k l).1 ++ (readChunk k l).2 = l := by
  intro k
  induction k with
  | zero => intro l; rfl
  | succ k ih =>
    intro l
    cases l with
    | nil => rfl
    | cons c rest =>
      by_cases h : c = '\n'
      · simp [readChunk, h]
      · simpa [readChunk, h] using ih rest

theorem readChunk_length_le : ∀ (k : Nat) (l : List Char),
    (readChunk k l).1.length ≤ k := by
  intro k
  induction k with
  | zero => intro l; simp [readChunk]
  | succ k ih =>
    intro l
    cases l with
    | nil => simp [readChunk]
    | cons c rest =>
      by_cases h : c = '\n'
      · simp [readChunk, h]
      · simpa [readChunk, h, Nat.succ_le_succ_iff] using ih rest

theorem readChunk_ne_nil (k : Nat) (l : List Char) (hk : 1 ≤ k) (hl : l ≠ []) :
    (readChunk k l).1 ≠ [] := by
  match k, l with
  | k + 1, c :: rest =>
    by_cases h : c = '\n'
    · simp [readChunk, h]
    · simp [readChunk, h]

theorem readChunk_rest_le : ∀ (k : Nat) (l : List Char),
    (readChunk k l).2.length ≤ l.length := by
  intro k
  induction k with
  | zero => intro l; simp [readChunk]
  | succ k ih =>
    intro l
    cases l with
    | nil => simp [readChunk]
    | cons c rest =>
      by_cases h : c = '\n'
      · simp [readChunk, h]
      · simp only [readChunk, h, if_false, List.length_cons]
        exact Nat.le_succ_of_le (ih rest)

theorem readChunk_rest_lt (k : Nat) (l : List Char) (hk : 1 ≤ k) (hl : l ≠ []) :
    (readChunk k l).2.length < l.length := by
  match k, l with
  | k + 1, c :: rest =>
    by_cases h : c = '\n'
    · simp [readChunk, h]
    · simp only [readChunk, h, if_false, List.length_cons]
      exact Nat.lt_succ_of_le (readChunk_rest_le k rest)

theorem readChunk_no_newline : ∀ (k : Nat) (l : List Char), '\n' ∉ l →
    readChunk k l = (l.take k, l.drop k) := by
  intro k
  induction k with
  | zero => intro l _; rfl
  | succ k ih =>
    intro l hl
    cases l with
    | nil => rfl
    | cons c rest =>
      have hc : ¬ c = '\n' := fun h => hl (h ▸ List.mem_cons_self c rest)
      have hrest : '\n' ∉ rest := fun h => hl (List.mem_cons_of_mem c h)
      simp [readChunk, hc, ih rest hrest]

theorem readChunk_line : ∀ (l : List Char) (k : Nat) (rest : List Char),
    '\n' ∉ l → l.length < k →
    readChunk k (l ++ '\n' :: rest) = (l ++ ['\n'], rest) := by
  intro l
  induction l with
  | nil =>
    intro k rest _ hk
    match k, hk with
    | k + 1, _ => simp [readChunk]
  | cons c l ih =>
    intro k rest hnl hk
    match k, hk with
    | k + 1, hk =>
      have hc : ¬ c = '\n' := fun h => hnl (h ▸ List.mem_cons_self c l)
      have hl : '\n' ∉ l := fun h => hnl (List.mem_cons_of_mem c h)
      have hlen : l.length < k := Nat.lt_of_succ_lt_succ hk
      simp [readChunk, hc, ih k rest hl hlen]

/-! ## Structural lemmas about the read loop -/

theorem loopAux_fuel (k : Nat) (hk : 1 ≤ k) (ending : StreamEnd) :
    ∀ (fuel₁ fuel₂ : Nat) (input : List Char),
      input.length < fuel₁ → input.length < fuel₂ →
      loopAux k fuel₁ input ending = loopAux k fuel₂ input ending := by
  intro fuel₁
  induction fuel₁ with
  | zero => intro fuel₂ input h₁ _; exact absurd h₁ (Nat.not_lt_zero _)
  | succ n ih =>
    intro fuel₂ input h₁ h₂
    match fuel₂, h₂ with
    | m + 1, h₂ =>
      cases input with
      | nil => cases ending <;> rfl
      | cons c rest =>
        have hlt := readChunk_rest_lt k (c :: rest) hk (by simp)
        have hn : (readChunk k (c :: rest)).2.length < n :=
          Nat.lt_of_lt_of_le hlt (Nat.lt_succ_iff.mp h₁)
        have hm : (readChunk k (c :: rest)).2.length < m :=
          Nat.lt_of_lt_of_le hlt (Nat.lt_succ_iff.mp h₂)
        simp only [loopAux]
        rw [ih n (readChunk k (c :: rest)).2 hn hn,
          ih m (readChunk k (c :: rest)).2 hn hm]

theorem runLoop_nil (k : Nat) (ending : StreamEnd) :
    runLoop k [] ending
      = ([], match ending with
             | StreamEnd.eof => none
             | StreamEnd.ioError => some "reading H3 index from stdin") := by
  cases ending <;> rfl

theorem runLoop_cons (k : Nat) (hk : 1 ≤ k) (input : List Char)
    (ending : StreamEnd) (hl : input ≠ []) :
    runLoop k input ending
      = ((readChunk k input).1 :: (runLoop k (readChunk k input).2 ending).1,
         (runLoop k (readChunk k input).2 ending).2) := by
  match input, hl with
  | c :: rest, _ =>
    have hlt := readChunk_rest_lt k (c :: rest) hk (by simp)
    show loopAux k (rest.length + 1 + 1) (c :: rest) ending = _
    simp only [loopAux]
    rw [loopAux_fuel k hk ending (rest.length + 1) ((readChunk k (c :: rest)).2.length + 1)
      (readChunk k (c :: rest)).2 (by simpa using hlt) (Nat.lt_succ_self _)]
    rfl

/-- Every character of the stream content ends up in exactly one buffer, in
order: the successive `fgets` buffers concatenate back to the content. -/
theorem runLoop_join (k : Nat) (hk : 1 ≤ k) (ending : StreamEnd) :
    ∀ input : List Char, (runLoop k input ending).1.flatten = input := by
  have H : ∀ (n : Nat) (input : List Char), input.length ≤ n →
      (runLoop k input ending).1.flatten = input := by
    intro n
    induction n with
    | zero =>
      intro input h
      have hnil : input = [] := List.eq_nil_of_length_eq_zero (Nat.le_zero.mp h)
      subst hnil
      rw [runLoop_nil]
      rfl
    | succ n ih =>
      intro input h
      cases input with
      | nil =>
        rw [runLoop_nil]
        rfl
      | cons c rest =>
        rw [runLoop_cons k hk _ ending (by simp)]
        have hlt := readChunk_rest_lt k (c :: rest) hk (by simp)
        have hle : (readChunk k (c :: rest)).2.length ≤ n := by
          have := h
          simp only [List.length_cons] at this hlt
          omega
        simp only [List.flatten_cons, ih _ hle]
        exact readChunk_append k (c :: rest)
  exact fun input => H input.length input (Nat.le_refl _)

/-- Every buffer handed to `stringToH3` is non-empty and holds at most `k`
characters (`fgets` reads at most `BUFF_SIZE - 1` characters). -/
theorem runLoop_chunks (k : Nat) (hk : 1 ≤ k) (ending : StreamEnd) :
    ∀ input : List Char, ∀ c ∈ (runLoop k input ending).1,
      c ≠ [] ∧ c.length ≤ k := by
  have H : ∀ (n : Nat) (input : List Char), input.length ≤ n →
      ∀ c ∈ (runLoop k input ending).1, c ≠ [] ∧ c.length ≤ k := by
    intro n
    induction n with
    | zero =>
      intro input h
      have hnil : input = [] := List.eq_nil_of_length_eq_zero (Nat.le_zero.mp h)
      subst hnil
      rw [runLoop_nil]
      intro c hc
      exact absurd hc (List.not_mem_nil c)
    | succ n ih =>
      intro input h
      cases input with
      | nil =>
        rw [runLoop_nil]
        intro c hc
        exact absurd hc (List.not_mem_nil c)
      | cons c0 rest =>
        rw [runLoop_cons k hk _ ending (by simp)]
        have hlt := readChunk_rest_lt k (c0 :: rest) hk (by simp)
        have hle : (readChunk k (c0 :: rest)).2.length ≤ n := by
          simp only [List.length_cons] at h hlt
          omega
        intro c hc
        rcases List.mem_cons.mp hc with hc | hc
        · subst hc
          exact ⟨readChunk_ne_nil k _ hk (by simp), readChunk_length_le k _⟩
        · exact ih _ hle c hc
  exact fun input => H input.length input (Nat.le_refl _)

/-- The loop's terminal outcome depends only on how the stream ends: `none`
(clean break on `feof`) at end-of-stream, the `error` message on an I/O
failure. -/
theorem runLoop_err (k : Nat) (hk : 1 ≤ k) (ending : StreamEnd) :
    ∀ input : List Char, (runLoop k input ending).2
      = match ending with
        | StreamEnd.eof => none
        | StreamEnd.ioError => some "reading H3 index from stdin" := by
  have H : ∀ (n : Nat) (input : List Char), input.length ≤ n →
      (runLoop k input ending).2
        = match ending with
          | StreamEnd.eof => none
          | StreamEnd.ioError => some "reading H3 index from stdin" := by
    intro n
    induction n with
    | zero =>
      intro input h
      have hnil : input = [] := List.eq_nil_of_length_eq_zero (Nat.le_zero.mp h)
      subst hnil
      rw [runLoop_nil]
    | succ n ih =>
      intro input h
      cases input with
      | nil => rw [runLoop_nil]
      | cons c rest =>
        rw [runLoop_cons k hk _ ending (by simp)]
        have hlt := readChunk_rest_lt k (c :: rest) hk (by simp)
        have hle : (readChunk k (c :: rest)).2.length ≤ n := by
          simp only [List.length_cons] at h hlt
          omega
        exact ih _ hle
  exact fun input => H input.length input (Nat.le_refl _)

/-- Whenever `configure` succeeds, the selected mode is 0 or 1, and the
pre-loop output is either empty (no arguments beyond the program name) or the
single header call with the `argv`/default name and description. -/
theorem configure_ok_cases {β : Type} (argv : List String) (m : Int)
    (hdr : List (OutEvent β)) (h : configure argv = Except.ok (m, hdr)) :
    (m = 0 ∨ m = 1) ∧
    (hdr = [] ∨
      hdr = [OutEvent.header (argv.getD 2 defaultKmlName)
               (argv.getD 3 defaultKmlDesc)]) := by
  unfold configure at h
  by_cases h1 : argv.length > 1
  · simp only [h1, if_true] at h
    split at h
    · exact absurd h (by simp)
    · split at h
      · exact absurd h (by simp)
      · rename_i hmode
        rw [not_and_or, not_not, not_not] at hmode
        injection h with h
        injection h with hm hh
        subst hm; subst hh
        exact ⟨hmode, Or.inr rfl⟩
  · simp only [h1, if_false] at h
    injection h with h
    injection h with hm hh
    subst hm; subst hh
    exact ⟨Or.inl rfl, Or.inl rfl⟩

/-- Evaluation of `main` past the usage check on a successful configuration:
the loop output follows the header, `error`'s message ends the run on a read
failure, and the footer is appended exactly when `isKmlOut` is truthy. -/
theorem mainRun_eval {β : Type} (C : Collaborators β) (cap : Nat)
    (argv : List String) (input : List Char) (ending : StreamEnd) (m : Int)
    (hdr : List (OutEvent β)) (h5 : ¬ argv.length > 5)
    (hcfg : configure argv = Except.ok (m, hdr)) :
    mainRun C cap argv input ending =
      match (runLoop (cap - 1) input ending).2 with
      | some msg =>
        ⟨hdr ++ (runLoop (cap - 1) input ending).1.map
            (fun b => OutEvent.record (doCell C (C.stringToH3 b) m)),
          ExitResult.fatalError msg⟩
      | none =>
        ⟨hdr ++ (runLoop (cap - 1) input ending).1.map
            (fun b => OutEvent.record (doCell C (C.stringToH3 b) m))
          ++ (if m ≠ 0 then [OutEvent.footer] else []), ExitResult.ok⟩ := by
  simp only [mainRun, if_neg h5, hcfg]

/-- Evaluation of `main` past the usage check when the configuration step
calls `error`: nothing is emitted and the process dies with that message. -/
theorem mainRun_eval_error {β : Type} (C : Collaborators β) (cap : Nat)
    (argv : List String) (input : List Char) (ending : StreamEnd) (msg : String)
    (h5 : ¬ argv.length > 5) (hcfg : configure (β := β) argv = Except.error msg) :
    mainRun C cap argv input ending = ⟨[], ExitResult.fatalError msg⟩ := by
  simp only [mainRun, if_neg h5, hcfg]

/-- When `sscanf` suffers a matching failure on `argv[1]`, the configuration
step calls `error("outputMode must be an integer")`. -/
theorem configure_matchFail {β : Type} (argv : List String)
    (h1 : 1 < argv.length)
    (h : scanInt (argv.getD 1 "") = ScanResult.matchFail) :
    configure (β := β) argv = Except.error "outputMode must be an integer" := by
  unfold configure
  rw [if_pos h1, h]
  rfl

/-- When `sscanf` parses an integer `v` from `argv[1]`, the configuration
step rejects `v` outside 0 and 1 and otherwise emits the header. -/
theorem configure_scan_ok {β : Type} (argv : List String) (v : Int)
    (h1 : 1 < argv.length)
    (h : scanInt (argv.getD 1 "") = ScanResult.ok v) :
    configure (β := β) argv =
      if v ≠ 0 ∧ v ≠ 1 then Except.error "outputMode must be 0 or 1"
      else Except.ok (v, [OutEvent.header (argv.getD 2 defaultKmlName)
        (argv.getD 3 defaultKmlDesc)]) := by
  unfold configure
  rw [if_pos h1, h]
  rfl

/-- Claim C7 (confirmed): any header emission happens before any record
output; the footer is emitted at most once, after all records, exactly once
in a run with a truthy output mode that reaches end-of-stream, and never when
the stream ends in a read failure. -/
theorem header_before_records_footer_last {β : Type} (C : Collaborators β)
    (cap : Nat) (argv : List String) (input : List Char) (ending : StreamEnd)
    (hcap : 2 ≤ cap) :
    ∃ hdr recs ft,
      (mainRun C cap argv input ending).events = hdr ++ recs ++ ft ∧
      (∀ e ∈ hdr, ∃ n d, e = OutEvent.header n d) ∧
      (∀ e ∈ recs, ∃ r, e = OutEvent.record r) ∧
      (∀ e ∈ ft, e = OutEvent.footer) ∧
      ft.length ≤ 1 ∧
      (ft ≠ [] → (mainRun C cap argv input ending).exit = ExitResult.ok ∧
        ending = StreamEnd.eof) ∧
      (¬ argv.length > 5 → ∀ (m : Int) (hdr0 : List (OutEvent β)),
        configure argv = Except.ok (m, hdr0) →
        m ≠ 0 → ending = StreamEnd.eof → ft = [OutEvent.footer]) := by
  have hk : 1 ≤ cap - 1 := by omega
  by_cases h5 : argv.length > 5
  · refine ⟨[], [], [], ?_, ?_, ?_, ?_, ?_, ?_, ?_⟩ <;>
      simp [mainRun, h5]
  · cases hcfg : configure (β := β) argv with
    | error msg =>
      refine ⟨[], [], [], ?_, ?_, ?_, ?_, ?_, ?_, ?_⟩ <;>
        simp [mainRun, h5, hcfg]
    | ok p =>
      obtain ⟨m, hdr0⟩ := p
      have hshape := configure_ok_cases argv m hdr0 hcfg
      have hmain := mainRun_eval C cap argv input ending m hdr0 h5 hcfg
      have herr := runLoop_err (cap - 1) hk ending input
      cases ending with
      | eof =>
        simp only [herr] at hmain
        refine ⟨hdr0,
          (runLoop (cap - 1) input StreamEnd.eof).1.map
            (fun b => OutEvent.record (doCell C (C.stringToH3 b) m)),
          if m ≠ 0 then [OutEvent.footer] else [], ?_, ?_, ?_, ?_, ?_, ?_, ?_⟩
        · rw [hmain]
        · intro e he
          rcases hshape.2 with h | h <;> subst h
          · exact absurd he (List.not_mem_nil e)
          · rcases List.mem_singleton.mp he with h
            exact ⟨_, _, h⟩
        · intro e he
          rcases List.mem_map.mp he with ⟨b, _, h⟩
          exact ⟨_, h.symm⟩
        · intro e he
          split at he
          · exact (List.mem_singleton.mp he)
          · exact absurd he (List.not_mem_nil e)
        · split <;> simp
        · intro _
          rw [hmain]
          exact ⟨rfl, rfl⟩
        · intro _ m' hdr' hok hm' _
          injection hok with h
          injection h with h1 h2
          have hm : m ≠ 0 := by rw [h1]; exact hm'
          rw [if_pos hm]
      | ioError =>
        simp only [herr] at hmain
        refine ⟨hdr0,
          (runLoop (cap - 1) input StreamEnd.ioError).1.map
            (fun b => OutEvent.record (doCell C (C.stringToH3 b) m)),
          [], ?_, ?_, ?_, ?_, ?_, ?_, ?_⟩
        · rw [hmain]; simp
        · intro e he
          rcases hshape.2 with h | h <;> subst h
          · exact absurd he (List.not_mem_nil e)
          · rcases List.mem_singleton.mp he with h
            exact ⟨_, _, h⟩
        · intro e he
          rcases List.mem_map.mp he with ⟨b, _, h⟩
          exact ⟨_, h.symm⟩
        · intro e he
          exact absurd he (List.not_mem_nil e)
        · simp
        · intro h
          exact absurd rfl h
        · intro _ _ _ _ _ h
          exact absurd h (by simp)

/-- Claim C1: the spec says the KML header is emitted only in KML mode, but
`kmlPtsHeader` is called whenever `argc > 1`, so the run
`h3ToGeoBoundary 0` (plain-text mode given explicitly) on empty stdin emits
the KML header; only the defaulted plain-text run (`argc == 1`) emits none.
The footer is indeed KML-only. -/
theorem mode0_explicit_emits_kml_header :
    mainRun lenCollab 256 ["h3ToGeoBoundary", "0"] [] StreamEnd.eof
      = ⟨[OutEvent.header "geo from H3" "from h3ToGeo"], ExitResult.ok⟩ ∧
    mainRun lenCollab 256 ["h3ToGeoBoundary"] [] StreamEnd.eof
      = ⟨[], ExitResult.ok⟩ := by
  exact ⟨rfl, rfl⟩

/-- Claim C2: the spec says more than 4 arguments total is a fatal usage
error, but the source checks `argc > 5`: an invocation with 5 arguments total
(one unused extra) is accepted, runs normally and reads input; only 6 or more
arguments trigger the usage error. -/
theorem fifth_argument_accepted :
    mainRun lenCollab 256 ["h3ToGeoBoundary", "0", "a", "b", "c"]
        ('f' :: 'f' :: '\n' :: []) StreamEnd.eof
      = ⟨[OutEvent.header "a" "b", OutEvent.record (RecordBody.plain "3" 3)],
         ExitResult.ok⟩ ∧
    (mainRun lenCollab 256 ["h3ToGeoBoundary", "0", "a", "b", "c"]
        ('f' :: 'f' :: '\n' :: []) StreamEnd.eof).exit ≠ ExitResult.usageError ∧
    mainRun lenCollab 256 ["h3ToGeoBoundary", "0", "a", "b", "c", "d"] []
        StreamEnd.eof
      = ⟨[], ExitResult.usageError⟩ := by
  exact ⟨rfl, by decide, rfl⟩

/-- Claim C3 counterexample: an empty first argument does not parse as the
integer 0 nor as 1, yet the process does not exit non-zero:
`sscanf("", "%d", ...)` returns `EOF`, `!EOF` is false, `isKmlOut` keeps its
initialiser 0, and the run proceeds (reading and processing records, exit
status 0). -/
theorem empty_outputMode_accepted :
    scanInt "" ≠ ScanResult.ok 0 ∧ scanInt "" ≠ ScanResult.ok 1 ∧
    exitCode (mainRun lenCollab 256 ["h3ToGeoBoundary", ""]
      ('f' :: 'f' :: '\n' :: []) StreamEnd.eof).exit = 0 ∧
    (mainRun lenCollab 256 ["h3ToGeoBoundary", ""]
        ('f' :: 'f' :: '\n' :: []) StreamEnd.eof).events
      = [OutEvent.header "geo from H3" "from h3ToGeo",
         OutEvent.record (RecordBody.plain "3" 3)] := by
  exact ⟨by decide, by decide, rfl, rfl⟩

/-- Claim C3 as amended: a first argument on which `sscanf("%d")` suffers a
matching failure (a non-whitespace string with no leading integer), or which
parses to an integer other than 0 and 1, is a fatal configuration error: the
process exits non-zero having emitted nothing and processed no records.  (An
empty or all-whitespace first argument escapes the check, because `sscanf`
returns `EOF` there and the source only tests for a zero return.) -/
theorem bad_outputMode_fatal {β : Type} (C : Collaborators β) (cap : Nat)
    (argv : List String) (input : List Char) (ending : StreamEnd)
    (h5 : ¬ argv.length > 5) (h1 : 1 < argv.length)
    (hbad : scanInt (argv.getD 1 "") = ScanResult.matchFail ∨
      ∃ v : Int, scanInt (argv.getD 1 "") = ScanResult.ok v ∧ v ≠ 0 ∧ v ≠ 1) :
    ∃ msg, mainRun C cap argv input ending = ⟨[], ExitResult.fatalError msg⟩ ∧
      exitCode (mainRun C cap argv input ending).exit ≠ 0 := by
  rcases hbad with hbad | ⟨v, hv, hv0, hv1⟩
  · have hcfg := configure_matchFail (β := β) argv h1 hbad
    have hmain := mainRun_eval_error C cap argv input ending _ h5 hcfg
    exact ⟨"outputMode must be an integer", hmain, by rw [hmain]; exact one_ne_zero⟩
  · have hcfg : configure (β := β) argv
        = Except.error "outputMode must be 0 or 1" := by
      rw [configure_scan_ok argv v h1 hv, if_pos ⟨hv0, hv1⟩]
    have hmain := mainRun_eval_error C cap argv input ending _ h5 hcfg
    exact ⟨"outputMode must be 0 or 1", hmain, by rw [hmain]; exact one_ne_zero⟩

/-- Witness for the amended C3 at `argv = ["h3ToGeoBoundary", "2"]`. -/
theorem bad_outputMode_fatal_witness :
    ∃ msg, mainRun lenCollab 256 ["h3ToGeoBoundary", "2"] [] StreamEnd.eof
        = ⟨[], ExitResult.fatalError msg⟩ ∧
      exitCode (mainRun lenCollab 256 ["h3ToGeoBoundary", "2"] []
        StreamEnd.eof).exit ≠ 0 :=
  bad_outputMode_fatal lenCollab 256 ["h3ToGeoBoundary", "2"] [] StreamEnd.eof
    (by decide) (by decide) (Or.inr ⟨2, by decide, by decide, by decide⟩)

/-- Claim C4 (confirmed): in a KML-mode run the header's name and description
come from `argv[2]`/`argv[3]` verbatim when supplied, and are the fixed
literals "geo from H3" and "from h3ToGeo" when omitted. -/
theorem kml_header_uses_argv_or_defaults {β : Type} (C : Collaborators β)
    (cap : Nat) (argv : List String) (input : List Char) (ending : StreamEnd)
    (h5 : ¬ argv.length > 5) (h1 : 1 < argv.length)
    (hmode : scanInt (argv.getD 1 "") = ScanResult.ok 1) :
    ∃ rest, (mainRun C cap argv input ending).events
        = OutEvent.header (argv.getD 2 defaultKmlName)
            (argv.getD 3 defaultKmlDesc) :: rest ∧
      (argv.length ≤ 2 →
        argv.getD 2 defaultKmlName = "geo from H3" ∧
        argv.getD 3 defaultKmlDesc = "from h3ToGeo") ∧
      (argv.length ≤ 3 → argv.getD 3 defaultKmlDesc = "from h3ToGeo") ∧
      (2 < argv.length → argv.getD 2 defaultKmlName = argv.getD 2 "") ∧
      (3 < argv.length → argv.getD 3 defaultKmlDesc = argv.getD 3 "") := by
  have hcfg : configure (β := β) argv
      = Except.ok (1, [OutEvent.header (argv.getD 2 defaultKmlName)
          (argv.getD 3 defaultKmlDesc)]) := by
    rw [configure_scan_ok argv 1 h1 hmode, if_neg]
    simp
  have hmain := mainRun_eval C cap argv input ending 1 _ h5 hcfg
  have d1 : argv.length ≤ 2 →
      argv.getD 2 defaultKmlName = "geo from H3" ∧
      argv.getD 3 defaultKmlDesc = "from h3ToGeo" := by
    intro h2
    exact ⟨by rw [List.getD_eq_default argv defaultKmlName (by omega)]; rfl,
      by rw [List.getD_eq_default argv defaultKmlDesc (by omega)]; rfl⟩
  have d2 : argv.length ≤ 3 → argv.getD 3 defaultKmlDesc = "from h3ToGeo" := by
    intro h3
    rw [List.getD_eq_default argv defaultKmlDesc (by omega)]
    rfl
  have d3 : 2 < argv.length → argv.getD 2 defaultKmlName = argv.getD 2 "" := by
    intro h2
    rw [List.getD_eq_getElem argv defaultKmlName h2,
      List.getD_eq_getElem argv "" h2]
  have d4 : 3 < argv.length → argv.getD 3 defaultKmlDesc = argv.getD 3 "" := by
    intro h3
    rw [List.getD_eq_getElem argv defaultKmlDesc h3,
      List.getD_eq_getElem argv "" h3]
  rcases hlp : (runLoop (cap - 1) input ending).2 with _ | msg <;> rw [hlp] at hmain
  · exact ⟨List.map (fun b => OutEvent.record (doCell C (C.stringToH3 b) 1))
        (runLoop (cap - 1) input ending).1
        ++ (if (1 : Int) ≠ 0 then [OutEvent.footer] else []),
      by rw [hmain]; rfl, d1, d2, d3, d4⟩
  · exact ⟨List.map (fun b => OutEvent.record (doCell C (C.stringToH3 b) 1))
        (runLoop (cap - 1) input ending).1,
      by rw [hmain]; rfl, d1, d2, d3, d4⟩

/-- Witness for C4 at `argv = ["h3ToGeoBoundary", "1"]` (both strings
omitted). -/
theorem kml_header_uses_argv_or_defaults_witness :
    ∃ rest, (mainRun lenCollab 256 ["h3ToGeoBoundary", "1"] [] StreamEnd.eof).events
        = OutEvent.header (["h3ToGeoBoundary", "1"].getD 2 defaultKmlName)
            (["h3ToGeoBoundary", "1"].getD 3 defaultKmlDesc) :: rest ∧
      (["h3ToGeoBoundary", "1"].length ≤ 2 →
        ["h3ToGeoBoundary", "1"].getD 2 defaultKmlName = "geo from H3" ∧
        ["h3ToGeoBoundary", "1"].getD 3 defaultKmlDesc = "from h3ToGeo") ∧
      (["h3ToGeoBoundary", "1"].length ≤ 3 →
        ["h3ToGeoBoundary", "1"].getD 3 defaultKmlDesc = "from h3ToGeo") ∧
      (2 < ["h3ToGeoBoundary", "1"].length →
        ["h3ToGeoBoundary", "1"].getD 2 defaultKmlName
          = ["h3ToGeoBoundary", "1"].getD 2 "") ∧
      (3 < ["h3ToGeoBoundary", "1"].length →
        ["h3ToGeoBoundary", "1"].getD 3 defaultKmlDesc
          = ["h3ToGeoBoundary", "1"].getD 3 "") :=
  kml_header_uses_argv_or_defaults lenCollab 256 ["h3ToGeoBoundary", "1"] []
    StreamEnd.eof (by decide) (by decide) (by decide)

/-- Claim C5 counterexample: the buffer handed to `stringToH3` is the raw
`fgets` result with the trailing newline still present, not removed.  On the
single input line `"ff\n"` the decoder receives the three characters
`['f', 'f', '\n']` (witnessed by the length-collaborator label "3"), not the
trimmed `['f', 'f']`. -/
theorem newline_reaches_decoder :
    decodeCalls 256 ('f' :: 'f' :: '\n' :: []) StreamEnd.eof
      = [['f', 'f', '\n']] ∧
    decodeCalls 256 ('f' :: 'f' :: '\n' :: []) StreamEnd.eof ≠ [['f', 'f']] ∧
    (mainRun lenCollab 256 ["h3ToGeoBoundary"] ('f' :: 'f' :: '\n' :: [])
        StreamEnd.eof).events
      = [OutEvent.record (RecordBody.plain "3" 3)] := by
  exact ⟨rfl, by decide, rfl⟩

/-- Claim C5 as amended: each raw line is handed to `stringToH3` exactly as
`fgets` stored it, with the trailing newline retained (no trimming happens);
for a line that fits in the buffer the decoder receives the line followed by
`'\n'`. -/
theorem line_passed_with_newline {β : Type} (C : Collaborators β) (cap : Nat)
    (l : List Char) (prog : String) (hnl : '\n' ∉ l)
    (hfit : l.length < cap - 1) :
    decodeCalls cap (l ++ ['\n']) StreamEnd.eof = [l ++ ['\n']] ∧
    (mainRun C cap [prog] (l ++ ['\n']) StreamEnd.eof).events
      = [OutEvent.record (doCell C (C.stringToH3 (l ++ ['\n'])) 0)] := by
  have hk : 1 ≤ cap - 1 := by omega
  have hne : l ++ ['\n'] ≠ [] := by simp
  have hline := readChunk_line l (cap - 1) [] hnl hfit
  have hcalls : (runLoop (cap - 1) (l ++ ['\n']) StreamEnd.eof).1
      = [l ++ ['\n']] := by
    rw [runLoop_cons (cap - 1) hk _ StreamEnd.eof hne, hline]
    simp [runLoop_nil]
  have hcfg : configure (β := β) [prog] = Except.ok (0, []) := rfl
  have h5 : ¬ ([prog] : List String).length > 5 := by simp
  have hmain := mainRun_eval C cap [prog] (l ++ ['\n']) StreamEnd.eof 0 [] h5 hcfg
  have herr := runLoop_err (cap - 1) hk StreamEnd.eof (l ++ ['\n'])
  rw [herr] at hmain
  refine ⟨hcalls, ?_⟩
  rw [hmain]
  show [] ++ _ ++ _ = _
  rw [hcalls]
  simp

/-- Witness for the amended C5 on the line `"ff"` with `BUFF_SIZE = 256`. -/
theorem line_passed_with_newline_witness :
    decodeCalls 256 (['f', 'f'] ++ ['\n']) StreamEnd.eof
      = [['f', 'f'] ++ ['\n']] ∧
    (mainRun lenCollab 256 ["h3ToGeoBoundary"] (['f', 'f'] ++ ['\n'])
        StreamEnd.eof).events
      = [OutEvent.record
          (doCell lenCollab (lenCollab.stringToH3 (['f', 'f'] ++ ['\n'])) 0)] :=
  line_passed_with_newline lenCollab 256 ['f', 'f'] "h3ToGeoBoundary"
    (by decide) (by decide)

/-- Claim C6: on empty input the defaulted plain-text run and the KML run
behave as specified (empty output; header immediately followed by footer),
but a plain-text run with outputMode 0 given explicitly emits the KML header,
so its output is not empty — the same defect as in C1. -/
theorem empty_input_output_by_mode :
    (mainRun lenCollab 256 ["h3ToGeoBoundary"] [] StreamEnd.eof).events = [] ∧
    mainRun lenCollab 256 ["h3ToGeoBoundary", "1"] [] StreamEnd.eof
      = ⟨[OutEvent.header "geo from H3" "from h3ToGeo", OutEvent.footer],
         ExitResult.ok⟩ ∧
    (mainRun lenCollab 256 ["h3ToGeoBoundary", "0"] [] StreamEnd.eof).events
      = [OutEvent.header "geo from H3" "from h3ToGeo"] ∧
    (mainRun lenCollab 256 ["h3ToGeoBoundary", "0"] [] StreamEnd.eof).events
      ≠ [] := by
  exact ⟨rfl, rfl, rfl, by decide⟩

/-- Witness for C7 at `cap = 256`, `argv = ["h3ToGeoBoundary", "1"]`, input
`"ff\n"`, clean end-of-stream. -/
theorem header_before_records_footer_last_witness :
    ∃ hdr recs ft,
      (mainRun lenCollab 256 ["h3ToGeoBoundary", "1"]
          ('f' :: 'f' :: '\n' :: []) StreamEnd.eof).events = hdr ++ recs ++ ft ∧
      (∀ e ∈ hdr, ∃ n d, e = OutEvent.header n d) ∧
      (∀ e ∈ recs, ∃ r, e = OutEvent.record r) ∧
      (∀ e ∈ ft, e = OutEvent.footer) ∧
      ft.length ≤ 1 ∧
      (ft ≠ [] → (mainRun lenCollab 256 ["h3ToGeoBoundary", "1"]
          ('f' :: 'f' :: '\n' :: []) StreamEnd.eof).exit = ExitResult.ok ∧
        StreamEnd.eof = StreamEnd.eof) ∧
      (¬ (["h3ToGeoBoundary", "1"] : List String).length > 5 →
        ∀ (m : Int) (hdr0 : List (OutEvent Nat)),
        configure ["h3ToGeoBoundary", "1"] = Except.ok (m, hdr0) →
        m ≠ 0 → StreamEnd.eof = StreamEnd.eof → ft = [OutEvent.footer]) :=
  header_before_records_footer_last lenCollab 256 ["h3ToGeoBoundary", "1"]
    ('f' :: 'f' :: '\n' :: []) StreamEnd.eof (by decide)

/-- Claim C8 (confirmed): when the stream ends in a non-EOF read failure, the
process halts with the `error` message (non-zero exit), having emitted
exactly the header (if any) and the records read before the failure, and no
footer. -/
theorem read_failure_halts_without_footer {β : Type} (C : Collaborators β)
    (cap : Nat) (argv : List String) (input : List Char) (m : Int)
    (hdr : List (OutEvent β)) (hcap : 2 ≤ cap) (h5 : ¬ argv.length > 5)
    (hcfg : configure argv = Except.ok (m, hdr)) :
    mainRun C cap argv input StreamEnd.ioError
      = ⟨hdr ++ (decodeCalls cap input StreamEnd.ioError).map
            (fun b => OutEvent.record (doCell C (C.stringToH3 b) m)),
          ExitResult.fatalError "reading H3 index from stdin"⟩ ∧
    exitCode (mainRun C cap argv input StreamEnd.ioError).exit ≠ 0 ∧
    OutEvent.footer ∉ (mainRun C cap argv input StreamEnd.ioError).events := by
  have hk : 1 ≤ cap - 1 := by omega
  have hmain := mainRun_eval C cap argv input StreamEnd.ioError m hdr h5 hcfg
  have herr := runLoop_err (cap - 1) hk StreamEnd.ioError input
  rw [herr] at hmain
  have hmain' : mainRun C cap argv input StreamEnd.ioError
      = ⟨hdr ++ (decodeCalls cap input StreamEnd.ioError).map
          (fun b => OutEvent.record (doCell C (C.stringToH3 b) m)),
        ExitResult.fatalError "reading H3 index from stdin"⟩ := hmain
  refine ⟨hmain', ?_, ?_⟩
  · rw [hmain']
    simp [exitCode]
  · rw [hmain']
    rcases (configure_ok_cases argv m hdr hcfg).2 with h | h <;> subst h <;> simp

/-- Witness for C8: KML-mode run on content `"ff\n"` whose stream then fails
with an I/O error. -/
theorem read_failure_halts_without_footer_witness :
    mainRun lenCollab 256 ["h3ToGeoBoundary", "1"] ('f' :: 'f' :: '\n' :: [])
        StreamEnd.ioError
      = ⟨[OutEvent.header "geo from H3" "from h3ToGeo"]
          ++ (decodeCalls 256 ('f' :: 'f' :: '\n' :: []) StreamEnd.ioError).map
            (fun b => OutEvent.record
              (doCell lenCollab (lenCollab.stringToH3 b) 1)),
          ExitResult.fatalError "reading H3 index from stdin"⟩ ∧
    exitCode (mainRun lenCollab 256 ["h3ToGeoBoundary", "1"]
        ('f' :: 'f' :: '\n' :: []) StreamEnd.ioError).exit ≠ 0 ∧
    OutEvent.footer ∉ (mainRun lenCollab 256 ["h3ToGeoBoundary", "1"]
        ('f' :: 'f' :: '\n' :: []) StreamEnd.ioError).events :=
  read_failure_halts_without_footer lenCollab 256 ["h3ToGeoBoundary", "1"]
    ('f' :: 'f' :: '\n' :: []) 1 [OutEvent.header "geo from H3" "from h3ToGeo"]
    (by decide) (by decide) rfl

/-- Claim C9 (confirmed): every buffer successfully read produces exactly one
record — its decode result is passed unconditionally to the active encoder —
no character of the stream is skipped, and per-record processing never
aborts: a run whose stream reaches end-of-stream exits 0 whatever the lines
contained. -/
theorem each_line_one_record {β : Type} (C : Collaborators β) (cap : Nat)
    (argv : List String) (input : List Char) (ending : StreamEnd) (m : Int)
    (hdr : List (OutEvent β)) (hcap : 2 ≤ cap) (h5 : ¬ argv.length > 5)
    (hcfg : configure argv = Except.ok (m, hdr)) :
    (decodeCalls cap input ending).flatten = input ∧
    (∃ ft, (∀ e ∈ ft, e = OutEvent.footer) ∧
      (mainRun C cap argv input ending).events
        = hdr ++ (decodeCalls cap input ending).map
            (fun b => OutEvent.record (doCell C (C.stringToH3 b) m)) ++ ft) ∧
    (ending = StreamEnd.eof →
      (mainRun C cap argv input ending).exit = ExitResult.ok) := by
  have hk : 1 ≤ cap - 1 := by omega
  have hmain := mainRun_eval C cap argv input ending m hdr h5 hcfg
  have herr := runLoop_err (cap - 1) hk ending input
  rw [herr] at hmain
  refine ⟨runLoop_join (cap - 1) hk ending input, ?_, ?_⟩
  · cases ending
    · exact ⟨if m ≠ 0 then [OutEvent.footer] else [],
        by split <;> simp, by rw [hmain]; rfl⟩
    · exact ⟨[], by simp, by rw [hmain]; simp [decodeCalls]⟩
  · intro he
    subst he
    rw [hmain]

/-- Witness for C9: defaulted plain-text run on the two lines
`"ff\n"`, `"ab\n"`. -/
theorem each_line_one_record_witness :
    (decodeCalls 256 ('f' :: 'f' :: '\n' :: 'a' :: 'b' :: '\n' :: [])
      StreamEnd.eof).flatten = 'f' :: 'f' :: '\n' :: 'a' :: 'b' :: '\n' :: [] ∧
    (∃ ft, (∀ e ∈ ft, e = OutEvent.footer) ∧
      (mainRun lenCollab 256 ["h3ToGeoBoundary"]
          ('f' :: 'f' :: '\n' :: 'a' :: 'b' :: '\n' :: []) StreamEnd.eof).events
        = [] ++ (decodeCalls 256 ('f' :: 'f' :: '\n' :: 'a' :: 'b' :: '\n' :: [])
              StreamEnd.eof).map
            (fun b => OutEvent.record
              (doCell lenCollab (lenCollab.stringToH3 b) 0)) ++ ft) ∧
    (StreamEnd.eof = StreamEnd.eof →
      (mainRun lenCollab 256 ["h3ToGeoBoundary"]
        ('f' :: 'f' :: '\n' :: 'a' :: 'b' :: '\n' :: [])
        StreamEnd.eof).exit = ExitResult.ok) :=
  each_line_one_record lenCollab 256 ["h3ToGeoBoundary"]
    ('f' :: 'f' :: '\n' :: 'a' :: 'b' :: '\n' :: []) StreamEnd.eof 0 []
    (by decide) (by decide) rfl

/-- Claim C10 (confirmed): an input line longer than `BUFF_SIZE - 1`
characters is neither a failure nor silently truncated to one record: the
line is read as two or more successive chunks — the first of exactly
`BUFF_SIZE - 1` characters — every chunk non-empty and at most
`BUFF_SIZE - 1` characters long, together covering the whole line, and each
chunk is decoded and emitted as its own record in a run that exits 0. -/
theorem long_line_split_into_chunks {β : Type} (C : Collaborators β)
    (cap : Nat) (l : List Char) (prog : String) (hcap : 2 ≤ cap)
    (hnl : '\n' ∉ l) (hlong : cap - 1 < l.length) :
    (decodeCalls cap l StreamEnd.eof).flatten = l ∧
    2 ≤ (decodeCalls cap l StreamEnd.eof).length ∧
    (∀ c ∈ decodeCalls cap l StreamEnd.eof, c ≠ [] ∧ c.length ≤ cap - 1) ∧
    (decodeCalls cap l StreamEnd.eof).head? = some (l.take (cap - 1)) ∧
    (mainRun C cap [prog] l StreamEnd.eof).events
      = (decodeCalls cap l StreamEnd.eof).map
          (fun b => OutEvent.record (doCell C (C.stringToH3 b) 0)) ∧
    (mainRun C cap [prog] l StreamEnd.eof).exit = ExitResult.ok := by
  have hk : 1 ≤ cap - 1 := by omega
  have hlnil : l ≠ [] := by
    intro h
    rw [h] at hlong
    simp at hlong
  have hcons := runLoop_cons (cap - 1) hk l StreamEnd.eof hlnil
  have hchunk := readChunk_no_newline (cap - 1) l hnl
  have hdrop : (readChunk (cap - 1) l).2 ≠ [] := by
    rw [hchunk]
    intro h
    have hlen := congrArg List.length h
    simp at hlen
    omega
  have hcons2 := runLoop_cons (cap - 1) hk (readChunk (cap - 1) l).2
    StreamEnd.eof hdrop
  have hcfg : configure (β := β) [prog] = Except.ok (0, []) := rfl
  have h5 : ¬ ([prog] : List String).length > 5 := by simp
  have hmain := mainRun_eval C cap [prog] l StreamEnd.eof 0 [] h5 hcfg
  have herr := runLoop_err (cap - 1) hk StreamEnd.eof l
  rw [herr] at hmain
  refine ⟨runLoop_join (cap - 1) hk StreamEnd.eof l, ?_,
    runLoop_chunks (cap - 1) hk StreamEnd.eof l, ?_, ?_, ?_⟩
  · show 2 ≤ (runLoop (cap - 1) l StreamEnd.eof).1.length
    rw [hcons]
    simp only [List.length_cons]
    rw [hcons2]
    simp
  · show (runLoop (cap - 1) l StreamEnd.eof).1.head? = some (l.take (cap - 1))
    rw [hcons]
    simp [hchunk]
  · rw [hmain]
    show [] ++ _ ++ _ = _
    simp [decodeCalls]
  · rw [hmain]

/-- Witness for C10: `BUFF_SIZE = 4` and the 7-character line `"abcdefg"`,
split into the chunks `"abc"`, `"def"`, `"g"`. -/
theorem long_line_split_into_chunks_witness :
    (decodeCalls 4 ('a' :: 'b' :: 'c' :: 'd' :: 'e' :: 'f' :: 'g' :: [])
      StreamEnd.eof).flatten
      = 'a' :: 'b' :: 'c' :: 'd' :: 'e' :: 'f' :: 'g' :: [] ∧
    2 ≤ (decodeCalls 4 ('a' :: 'b' :: 'c' :: 'd' :: 'e' :: 'f' :: 'g' :: [])
      StreamEnd.eof).length ∧
    (∀ c ∈ decodeCalls 4 ('a' :: 'b' :: 'c' :: 'd' :: 'e' :: 'f' :: 'g' :: [])
      StreamEnd.eof, c ≠ [] ∧ c.length ≤ 4 - 1) ∧
    (decodeCalls 4 ('a' :: 'b' :: 'c' :: 'd' :: 'e' :: 'f' :: 'g' :: [])
        StreamEnd.eof).head?
      = some (('a' :: 'b' :: 'c' :: 'd' :: 'e' :: 'f' :: 'g' :: []).take (4 - 1)) ∧
    (mainRun lenCollab 4 ["h3ToGeoBoundary"]
        ('a' :: 'b' :: 'c' :: 'd' :: 'e' :: 'f' :: 'g' :: []) StreamEnd.eof).events
      = (decodeCalls 4 ('a' :: 'b' :: 'c' :: 'd' :: 'e' :: 'f' :: 'g' :: [])
          StreamEnd.eof).map
          (fun b => OutEvent.record (doCell lenCollab (lenCollab.stringToH3 b) 0)) ∧
    (mainRun lenCollab 4 ["h3ToGeoBoundary"]
        ('a' :: 'b' :: 'c' :: 'd' :: 'e' :: 'f' :: 'g' :: [])
        StreamEnd.eof).exit = ExitResult.ok :=
  long_line_split_into_chunks lenCollab 4
    ('a' :: 'b' :: 'c' :: 'd' :: 'e' :: 'f' :: 'g' :: []) "h3ToGeoBoundary"
    (by decide) (by decide) (by decide)

end H3Filter
